import Mathlib

/-!
# Kurimuzon bot: progression store and command dispatcher

A shallow embedding of `src/index.js`: the in-memory progression store
(`xpData`), `addXP`, `isAdmin`, and the `message` event handler, followed by
the properties proved about them.

Modelling conventions.

* A field of a progression record holds a JavaScript value.  The values that
  the handler can put there are numbers, `NaN` and `undefined` (an absent
  field reads as `undefined`).  Numbers are integers here; JavaScript numbers
  agree with them below `2^53`.
* `xpData` is a map from user identifiers to records.  User identifiers are
  the transport's serialized ids; none of them is a property name inherited
  from `Object.prototype`.
* The handler's awaited reads (`getChat`, `downloadMedia`,
  `getQuotedMessage`, `getMentions`) are fields of the inbound message; the
  outcome of everything the handler cannot determine itself (the random draw,
  the text-generation answer, whether a group-management call rejects, the
  runtime's `toLowerCase`) is a field of `World`.
* The handler's observable actions are collected, in program order, in a list
  of `Effect`s.  An awaited group-management call that rejects ends the
  handler at that point (`threw`): the source has no `try`/`catch` around it.
-/

namespace Kurimuzon

/-! ## JavaScript values and the operators the source applies to them -/

/-- Values of a record field: `undefined` (also: field absent), `NaN`, or a number. -/
inductive JSVal where
  | undefined
  | nan
  | num (n : Int)
  deriving DecidableEq, Repr

/-- ToNumber: `none` stands for `NaN`. -/
def JSVal.toNumber : JSVal → Option Int
  | .undefined => none
  | .nan => none
  | .num n => some n

/-- Numeric `a + b` (both operands are numbers or `undefined`, never strings). -/
def jsAdd (a b : JSVal) : JSVal :=
  match a.toNumber, b.toNumber with
  | some x, some y => .num (x + y)
  | _, _ => .nan

/-- Numeric `a * b`. -/
def jsMul (a b : JSVal) : JSVal :=
  match a.toNumber, b.toNumber with
  | some x, some y => .num (x * y)
  | _, _ => .nan

/-- Relational `a >= b`: false as soon as one side is `NaN`. -/
def jsGe (a b : JSVal) : Bool :=
  match a.toNumber, b.toNumber with
  | some x, some y => decide (y ≤ x)
  | _, _ => false

/-- ToBoolean. -/
def JSVal.truthy : JSVal → Bool
  | .undefined => false
  | .nan => false
  | .num n => decide (n ≠ 0)

/-- Strict equality `a === b`. -/
def jsStrictEq : JSVal → JSVal → Bool
  | .undefined, .undefined => true
  | .num x, .num y => decide (x = y)
  | _, _ => false

/-- Decimal rendering of an integer, as a template literal prints a number. -/
def intToString : Int → String
  | Int.ofNat n => Nat.repr n
  | Int.negSucc n => "-" ++ Nat.repr (n + 1)

/-- ToString, as applied by a template literal. -/
def JSVal.toStr : JSVal → String
  | .undefined => "undefined"
  | .nan => "NaN"
  | .num n => intToString n

/-! ## Strings: `trim`, `startsWith`, `includes`, `replace`, `split`, `isNaN`, `parseInt` -/

/-- WhiteSpace and LineTerminator code points (what `trim` strips and what
StringToNumber skips). -/
def isJSWhiteSpace (c : Char) : Bool :=
  let n := c.toNat
  n == 0x09 || n == 0x0A || n == 0x0B || n == 0x0C || n == 0x0D || n == 0x20 ||
  n == 0xA0 || n == 0x1680 || (0x2000 ≤ n && n ≤ 0x200A) || n == 0x2028 ||
  n == 0x2029 || n == 0x202F || n == 0x205F || n == 0x3000 || n == 0xFEFF

/-- Leading white space removed. -/
def trimStart (s : List Char) : List Char := s.dropWhile isJSWhiteSpace

/-- Model of `String.prototype.trim`. -/
def trim (s : List Char) : List Char :=
  ((trimStart s).reverse.dropWhile isJSWhiteSpace).reverse

/-- Model of `s.startsWith(p)`. -/
def startsWith (s : List Char) (p : String) : Bool := p.data.isPrefixOf s

/-- Model of `s.includes(p)`, on lists of characters. -/
def includesList (p : List Char) : List Char → Bool
  | [] => p.isPrefixOf []
  | c :: cs => p.isPrefixOf (c :: cs) || includesList p cs

/-- Model of `s.includes(p)`. -/
def includes (s : List Char) (p : String) : Bool := includesList p.data s

/-- Model of `s.replace(p, r)` for a string pattern: the first occurrence only. -/
def replaceFirst (p r : List Char) : List Char → List Char
  | [] => if p.isPrefixOf [] then r else []
  | c :: cs => if p.isPrefixOf (c :: cs) then r ++ (c :: cs).drop p.length
               else c :: replaceFirst p r cs

/-- Model of `s.split(' ')`. -/
def splitSpace : List Char → List (List Char)
  | [] => [[]]
  | c :: cs =>
    if c = ' ' then [] :: splitSpace cs
    else match splitSpace cs with
      | [] => [[c]]
      | p :: ps => (c :: p) :: ps

/-- Decimal digit. -/
def isDecDigit (c : Char) : Bool := '0' ≤ c && c ≤ '9'

/-- Hexadecimal digit. -/
def isHexDigit (c : Char) : Bool :=
  isDecDigit c || ('a' ≤ c && c ≤ 'f') || ('A' ≤ c && c ≤ 'F')

/-- Value of a digit in radix up to 16. -/
def digitVal (c : Char) : Nat :=
  if isDecDigit c then c.toNat - '0'.toNat
  else if 'a' ≤ c && c ≤ 'f' then c.toNat - 'a'.toNat + 10
  else c.toNat - 'A'.toNat + 10

/-- ExponentPart opt, then end of input. -/
def isExponentOpt : List Char → Bool
  | [] => true
  | e :: rest =>
    (e = 'e' || e = 'E') &&
    (let ds := match rest with
      | '+' :: t => t
      | '-' :: t => t
      | t => t
     !ds.isEmpty && ds.all isDecDigit)

/-- StrUnsignedDecimalLiteral: `Infinity`, `d.d?e?`, `.de?` or `de?`. -/
def isUnsignedDecimal (s : List Char) : Bool :=
  s = "Infinity".data ||
  (let ip := s.takeWhile isDecDigit
   let rest := s.dropWhile isDecDigit
   match rest with
   | '.' :: t =>
     let fp := t.takeWhile isDecDigit
     (!ip.isEmpty || !fp.isEmpty) && isExponentOpt (t.dropWhile isDecDigit)
   | t => !ip.isEmpty && isExponentOpt t)

/-- StrNumericLiteral: a signed decimal literal or an unsigned `0x`/`0o`/`0b` literal. -/
def isStrNumericLiteral (s : List Char) : Bool :=
  match s with
  | '0' :: x :: ds =>
    if x = 'x' || x = 'X' then !ds.isEmpty && ds.all isHexDigit
    else if x = 'o' || x = 'O' then !ds.isEmpty && ds.all (fun c => '0' ≤ c && c ≤ '7')
    else if x = 'b' || x = 'B' then !ds.isEmpty && ds.all (fun c => c = '0' || c = '1')
    else isUnsignedDecimal s
  | '+' :: t => isUnsignedDecimal t
  | '-' :: t => isUnsignedDecimal t
  | t => isUnsignedDecimal t

/-- Model of `isNaN(s)` for a string `s`: `Number(s)` is `NaN` unless `s`, white
space trimmed, is empty or a numeric literal. -/
def isNaN (s : List Char) : Bool :=
  let t := trim s
  !(t.isEmpty || isStrNumericLiteral t)

/-- Value of a digit string in the given radix. -/
def digitsValue (radix : Nat) (ds : List Char) : Nat :=
  ds.foldl (fun acc c => acc * radix + digitVal c) 0

/-- Model of `parseInt(s)` without a radix argument: skip white space, read a
sign, read a leading `0x`, then the longest run of digits; `NaN` if that run is
empty. -/
def parseInt (s : List Char) : JSVal :=
  let t := trimStart s
  let (neg, u) := match t with
    | '-' :: r => (true, r)
    | '+' :: r => (false, r)
    | r => (false, r)
  let (radix, v) := match u with
    | '0' :: 'x' :: r => (16, r)
    | '0' :: 'X' :: r => (16, r)
    | r => (10, r)
  let ds := v.takeWhile (fun c => if radix = 16 then isHexDigit c else isDecDigit c)
  if ds.isEmpty then .nan
  else if neg then .num (-(digitsValue radix ds : Int)) else .num (digitsValue radix ds)

/-! ## The progression store -/

/-- One entry of `xpData`: the fields `xp`, `level` and `game`. -/
structure Record where
  xp : JSVal
  level : JSVal
  game : JSVal
  deriving DecidableEq, Repr

/-- The in-memory mapping `xpData`, keyed by user identifier. -/
abbrev Store := String → Option Record

/-- The mapping of a process started without a storage file: `{}`. -/
def emptyStore : Store := fun _ => none

/-- Assignment `xpData[user] = r`. -/
def Store.set (s : Store) (user : String) (r : Record) : Store :=
  fun u => if u = user then some r else s u

/-! ## Messages, the world, and effects -/

/-- Downloaded media; its content is not inspected. -/
abbrev Media := String

/-- A group participant: `p.id._serialized`, `p.id.user`, `p.isAdmin`. -/
structure Participant where
  id : String
  user : String
  isAdmin : Bool
  deriving DecidableEq, Repr

/-- The chat of a message: `chat.isGroup`, `chat.participants`, `chat.id._serialized`. -/
structure Chat where
  isGroup : Bool
  participants : List Participant
  id : String
  deriving DecidableEq, Repr

/-- A quoted message: `quoted.type` and the result of `quoted.downloadMedia()`. -/
structure Quoted where
  type : String
  media : Option Media
  deriving DecidableEq, Repr

/-- An inbound message with the results of the reads the handler awaits on it.
`downloadMedia k` is the result of the `k`-th call of `msg.downloadMedia()`
(`none`: nothing downloaded); `mentions` holds the serialized ids of
`msg.getMentions()`. -/
structure Msg where
  sender : String
  body : String
  mentionedIds : Option (List String)
  hasMedia : Bool
  isViewOnce : Bool
  hasQuotedMsg : Bool
  chat : Chat
  downloadMedia : Nat → Option Media
  quoted : Quoted
  mentions : List String

/-- The group-management calls of the transport. -/
inductive GroupOp where
  | mute
  | unmute
  | removeParticipants
  | promoteParticipants
  | demoteParticipants
  deriving DecidableEq, Repr

/-- Everything the handler depends on besides the store and the message.
`draw` is `Math.floor(Math.random() * 10)`; `crimsonReply p` is what
`getCrimsonReply(p)` resolves to (the service's answer or a fallback);
`rejects op k` tells whether the `k`-th awaited call of `op` rejects. -/
structure World where
  botId : String
  toLowerCase : List Char → List Char
  draw : Fin 10
  crimsonReply : List Char → String
  rejects : GroupOp → Nat → Bool

/-- The texts the bot sends. -/
inductive Text where
  | levelUp (level : JSVal)
  | crimson (reply : String)
  | profile (level xp : JSVal)
  | gamePrompt
  | guessUsage
  | guessCorrect
  | guessWrong (game : JSVal)
  | tagAll (users : List String)
  | muted
  | unmuted
  deriving DecidableEq, Repr

/-- The string of each text, as the source builds it. -/
def Text.render : Text → String
  | .levelUp level => "🆙 *Level up!* You\x27re now level " ++ level.toStr
  | .crimson reply => "📘 " ++ reply
  | .profile level xp =>
    "📜 *Kurimuzon♦️ Profile*\nLevel: " ++ level.toStr ++ "\nXP: " ++ xp.toStr
  | .gamePrompt => "🎲 Uhm... guess a number between 1 and 10. Use `.guess <number>`"
  | .guessUsage => "😅 U-uh... use `.guess <number>` properly..."
  | .guessCorrect => "🎉 C-correct! +20 XP"
  | .guessWrong game => "❌ N-not quite... it was " ++ game.toStr
  | .tagAll users => "📢 Umm... guys?\n" ++ " ".intercalate (users.map (fun u => "@" ++ u))
  | .muted => "🔇 M-muted..."
  | .unmuted => "🔊 U-unmuted!"

/-- Options of a media message: the caption `🔓 View-once revealed by Kurimuzon♦️`,
the flag `sendMediaAsSticker: true`, or the caption `🖼️ Converted!`. -/
inductive MediaOpt where
  | viewOnceRevealed
  | sticker
  | converted
  deriving DecidableEq, Repr

/-- Observable actions of the handler: `client.sendMessage(dest, text)`,
`client.sendMessage(dest, media, opt)`, `chat.sendMessage(text, mentions)`, a
group-management call on the chat (`target` is the one id passed to
`removeParticipants`, `promoteParticipants` or `demoteParticipants`, and is absent
for `mute` and `unmute`), `saveXP()`, and the request `getCrimsonReply(prompt)` makes. -/
inductive Effect where
  | sendMessage (dest : String) (text : Text)
  | sendMedia (dest : String) (media : Media) (opt : MediaOpt)
  | chatSendMessage (text : Text) (mentions : List String)
  | group (op : GroupOp) (target : Option String)
  | saveXP
  | fetchCompletion (prompt : List Char)
  deriving DecidableEq, Repr

/-- A level-up notification. -/
def Effect.isLevelUp : Effect → Bool
  | .sendMessage _ (.levelUp _) => true
  | _ => false

/-! ## `addXP` and `isAdmin` -/

/-- Model of `addXP(user, amount)`: the new mapping and the effects. -/
def addXP (s : Store) (user : String) (amount : Int) : Store × List Effect :=
  let r0 : Record := match s user with
    | some r => r
    | none => { xp := .num 0, level := .num 1, game := .undefined }
  let r1 : Record := { r0 with xp := jsAdd r0.xp (.num amount) }
  let nextLevel := jsMul r1.level (.num 100)
  if jsGe r1.xp nextLevel then
    let r2 : Record := { r1 with level := jsAdd r1.level (.num 1) }
    (s.set user r2, [.sendMessage user (.levelUp r2.level), .saveXP])
  else
    (s.set user r1, [.saveXP])

/-- Model of `isAdmin(chat, senderId)`. -/
def isAdmin (chat : Chat) (senderId : String) : Bool :=
  if !chat.isGroup then false
  else match chat.participants.find? (fun p => p.id = senderId) with
    | some p => p.isAdmin
    | none => false

/-! ## The `message` handler -/

/-- What handling one message leaves behind: the mapping, the effects in
program order, and whether the handler ended in a rejected call. -/
structure Outcome where
  store : Store
  effects : List Effect
  threw : Bool

/-- The loops `for (const user of mentions) await chat.op([user.id._serialized])`:
one awaited call per mentioned user, in order, `k` counting the calls; a call
that rejects ends the loop and the handler. -/
def forEachMention (op : GroupOp) (rejects : Nat → Bool) :
    Nat → List String → List Effect × Bool
  | _, [] => ([], false)
  | k, u :: us =>
    if rejects k then ([.group op (some u)], true)
    else
      let rest := forEachMention op rejects (k + 1) us
      (.group op (some u) :: rest.1, rest.2)

/-- The group-admin commands (source lines 176-213), entered with mapping `s`
and the effects `e` so far. -/
def adminRules (w : World) (msg : Msg) (body : List Char) (s : Store)
    (e : List Effect) : Outcome :=
  let chat := msg.chat
  let sender := msg.sender
  if decide (body = ".tagall".data) && chat.isGroup && isAdmin chat sender then
    let mentions := chat.participants.map (fun p => p.id)
    ⟨s, e ++ [.chatSendMessage (.tagAll (chat.participants.map (fun p => p.user))) mentions],
      false⟩
  else if decide (body = ".mute".data) && chat.isGroup && isAdmin chat sender then
    if w.rejects .mute 0 then ⟨s, e ++ [.group .mute none], true⟩
    else ⟨s, e ++ [.group .mute none, .sendMessage chat.id .muted], false⟩
  else if decide (body = ".unmute".data) && chat.isGroup && isAdmin chat sender then
    if w.rejects .unmute 0 then ⟨s, e ++ [.group .unmute none], true⟩
    else ⟨s, e ++ [.group .unmute none, .sendMessage chat.id .unmuted], false⟩
  else
    let kick :=
      if startsWith body ".kick" && chat.isGroup && isAdmin chat sender then
        forEachMention .removeParticipants (w.rejects .removeParticipants) 0 msg.mentions
      else ([], false)
    if kick.2 then ⟨s, e ++ kick.1, true⟩
    else
      let promote :=
        if startsWith body ".promote" && chat.isGroup && isAdmin chat sender then
          forEachMention .promoteParticipants (w.rejects .promoteParticipants) 0 msg.mentions
        else ([], false)
      if promote.2 then ⟨s, e ++ kick.1 ++ promote.1, true⟩
      else
        let demote :=
          if startsWith body ".demote" && chat.isGroup && isAdmin chat sender then
            forEachMention .demoteParticipants (w.rejects .demoteParticipants) 0 msg.mentions
          else ([], false)
        ⟨s, e ++ kick.1 ++ promote.1 ++ demote.1, demote.2⟩

/-- The guess command (source lines 157-174) and what follows it. -/
def guessRule (w : World) (msg : Msg) (body : List Char) (s : Store)
    (e : List Effect) : Outcome :=
  let sender := msg.sender
  if startsWith body ".guess" then
    let parts := splitSpace body
    if decide (parts.length < 2) || isNaN (parts.getD 1 []) then
      ⟨s, e ++ [.sendMessage sender .guessUsage], false⟩
    else
      let guess := parseInt (parts.getD 1 [])
      match s sender with
      | some r =>
        if r.game.truthy then
          let a : Store × List Effect :=
            if jsStrictEq guess r.game then
              let x := addXP s sender 20
              (x.1, x.2 ++ [.sendMessage sender .guessCorrect])
            else (s, [.sendMessage sender (.guessWrong r.game)])
          let s2 : Store := match a.1 sender with
            | some r2 => a.1.set sender { r2 with game := .undefined }
            | none => a.1
          adminRules w msg body s2 (e ++ a.2 ++ [.saveXP])
        else adminRules w msg body s e
      | none => adminRules w msg body s e
  else adminRules w msg body s e

/-- Model of the `message` event handler (source lines 87-214). -/
def onMessage (w : World) (s : Store) (msg : Msg) : Outcome :=
  let sender := msg.sender
  let body := trim msg.body.data
  let lower := w.toLowerCase body
  let a : Store × List Effect := if !startsWith body "." then addXP s sender 5 else (s, [])
  let s1 := a.1
  let e1 := a.2
  let isMentioned :=
    (match msg.mentionedIds with
      | some ids => ids.contains w.botId
      | none => false) || includes lower "kurimuzon"
  if isMentioned && !startsWith body "." then
    ⟨s1, e1 ++ [.fetchCompletion body, .sendMessage sender (.crimson (w.crimsonReply body))],
      false⟩
  else
    let viewOnce := msg.hasMedia && msg.isViewOnce
    match (if viewOnce then msg.downloadMedia 0 else none) with
    | some media => ⟨s1, e1 ++ [.sendMedia sender media .viewOnceRevealed], false⟩
    | none =>
      let k := if viewOnce then 1 else 0
      match (if msg.hasMedia && decide (body = ".sticker".data) then msg.downloadMedia k
             else none) with
      | some media => ⟨s1, e1 ++ [.sendMedia sender media .sticker], false⟩
      | none =>
        match (if decide (body = ".toimage".data) && msg.hasQuotedMsg
                  && decide (msg.quoted.type = "sticker") then msg.quoted.media
               else none) with
        | some media => ⟨s1, e1 ++ [.sendMedia sender media .converted], false⟩
        | none =>
          if body = ".profile".data then
            let userXP : Record := match s1 sender with
              | some r => r
              | none => { xp := .num 0, level := .num 1, game := .undefined }
            ⟨s1, e1 ++ [.sendMessage sender (.profile userXP.level userXP.xp)], false⟩
          else if startsWith body ".crimson" then
            let prompt := trim (replaceFirst ".crimson".data [] body)
            ⟨s1, e1 ++ [.fetchCompletion prompt,
                        .sendMessage sender (.crimson (w.crimsonReply prompt))], false⟩
          else if body = ".game".data then
            let number : Int := (w.draw.val : Int) + 1
            let r : Record := match s1 sender with
              | some r => r
              | none => { xp := .undefined, level := .undefined, game := .undefined }
            ⟨s1.set sender { r with game := .num number },
              e1 ++ [.saveXP, .sendMessage sender .gamePrompt], false⟩
          else guessRule w msg body s1 e1

/-- Handling a sequence of messages, each in its own world, from mapping `s`:
the mapping after the last one. -/
def runAll (s : Store) : List (World × Msg) → Store
  | [] => s
  | (w, msg) :: rest => runAll (onMessage w s msg).store rest

/-! ## Vocabulary of the properties -/

/-- The record a read falls back to when the user has none: `{ xp: 0, level: 1 }`. -/
def defaultRecord : Record := { xp := .num 0, level := .num 1, game := .undefined }

/-- The progression a reader sees for `u`: `xpData[u] || { xp: 0, level: 1 }`. -/
def progression (s : Store) (u : String) : Record :=
  match s u with
  | some r => r
  | none => defaultRecord

/-- No guessing round is open for `u`: `xpData[u]?.game` is falsy. -/
def noOpenRound (s : Store) (u : String) : Prop :=
  ∀ r, s u = some r → r.game.truthy = false

/-- The bodies of the group-admin commands: exactly `.tagall`, `.mute`, `.unmute`,
or starting with `.kick`, `.promote`, `.demote`. -/
def isAdminCommand (body : List Char) : Bool :=
  decide (body = ".tagall".data) || decide (body = ".mute".data) ||
  decide (body = ".unmute".data) || startsWith body ".kick" ||
  startsWith body ".promote" || startsWith body ".demote"

/-- The view-once rule (source lines 105-113) does not answer the message. -/
def viewOncePasses (msg : Msg) : Prop :=
  (msg.hasMedia && msg.isViewOnce) = true → msg.downloadMedia 0 = none

/-- The command word of the three per-mention group operations. -/
def mentionCommand : GroupOp → Option String
  | .removeParticipants => some ".kick"
  | .promoteParticipants => some ".promote"
  | .demoteParticipants => some ".demote"
  | _ => none

/-- No record of the mapping has `xp >= level * 100`. -/
def thresholdsSettled (s : Store) : Prop :=
  ∀ u r, s u = some r → jsGe r.xp (jsMul r.level (.num 100)) = false

/-- Handling a message carried `u` over the threshold of the level it had before:
the experience afterwards is at least `100 *` the earlier level. -/
def crossed (before after : Store) (u : String) : Bool :=
  jsGe (progression after u).xp (jsMul (progression before u).level (.num 100))

/-- The record `.game` writes the drawn number into: the user's record, or `{}`. -/
def recordOrBlank (s : Store) (u : String) : Record :=
  match s u with
  | some r => r
  | none => { xp := .undefined, level := .undefined, game := .undefined }

/-- The threshold test `addXP(u, a)` makes: `xp + a >= level * 100`. -/
def thresholdTest (s : Store) (u : String) (a : Int) : Bool :=
  jsGe (jsAdd (progression s u).xp (.num a)) (jsMul (progression s u).level (.num 100))

/-- The three ways handling a message of `u` can change the mapping from `s` to `t`,
with `n` the number of level-up notifications sent: nothing changes for `u`; only the
pending number of `u` is written; or one `addXP(u, a)` with `a` at most 100 ran (the
pending number possibly written as well). -/
def stepShape (s : Store) (u : String) (t : Store) (n : Nat) : Prop :=
  (∀ v, v ≠ u → t v = s v) ∧
  ((t u = s u ∧ n = 0) ∨
   (∃ g, t u = some ⟨(recordOrBlank s u).xp, (recordOrBlank s u).level, g⟩ ∧ n = 0) ∨
   (∃ a g, 0 ≤ a ∧ a ≤ 100 ∧
      t u = some ⟨jsAdd (progression s u).xp (.num a),
        if thresholdTest s u a then jsAdd (progression s u).level (.num 1)
        else (progression s u).level, g⟩ ∧
      n = if thresholdTest s u a then 1 else 0))

/-! ## Concrete worlds and messages used in the examples -/

/-- Lower-casing of the ASCII letters; it agrees with `toLowerCase` on ASCII text. -/
def asciiLower (s : List Char) : List Char := s.map Char.toLower

/-- A world in which no group-management call rejects. -/
def exWorld (draw : Fin 10) : World :=
  { botId := "bot@c.us", toLowerCase := asciiLower, draw := draw,
    crimsonReply := fun _ => "ok", rejects := fun _ _ => false }

/-- A world in which the first `removeParticipants` call rejects. -/
def exWorldRejecting : World :=
  { botId := "bot@c.us", toLowerCase := asciiLower, draw := 0,
    crimsonReply := fun _ => "ok",
    rejects := fun op k => decide (op = .removeParticipants ∧ k = 0) }

/-- A plain text message in a private chat. -/
def textMsg (sender body : String) : Msg :=
  { sender := sender, body := body, mentionedIds := none, hasMedia := false,
    isViewOnce := false, hasQuotedMsg := false,
    chat := { isGroup := false, participants := [], id := sender },
    downloadMedia := fun _ => none, quoted := { type := "chat", media := none },
    mentions := [] }

/-- A group with an admin `admin@c.us` and a plain member `member@c.us`. -/
def exGroup : Chat :=
  { isGroup := true,
    participants := [⟨"admin@c.us", "admin", true⟩, ⟨"member@c.us", "member", false⟩],
    id := "group@g.us" }

/-- A text message in `exGroup` mentioning the given users. -/
def groupMsg (sender body : String) (mentions : List String) : Msg :=
  { textMsg sender body with chat := exGroup, mentions := mentions }

/-- A mapping with one record, for user `u`. -/
def oneRecord (u : String) (r : Record) : Store := emptyStore.set u r

/-! ## Helper lemmas -/

theorem startsWith_iff (s : List Char) (p : String) :
    startsWith s p = true ↔ ∃ t, s = p.data ++ t := by
  unfold startsWith
  rw [List.isPrefixOf_iff_prefix]
  constructor
  · rintro ⟨t, rfl⟩; exact ⟨t, rfl⟩
  · rintro ⟨t, rfl⟩; exact ⟨t, rfl⟩

theorem set_same (s : Store) (u : String) (r : Record) : s.set u r u = some r := by
  simp [Store.set]

theorem set_other (s : Store) (u v : String) (r : Record) (h : v ≠ u) :
    s.set u r v = s v := by
  simp [Store.set, h]

/-- `addXP` on a record with numeric experience and level. -/
theorem addXP_numeric (s : Store) (user : String) (x L a : Int) (g : JSVal)
    (h : s user = some ⟨.num x, .num L, g⟩) :
    addXP s user a =
      if 100 * L ≤ x + a then
        (s.set user ⟨.num (x + a), .num (L + 1), g⟩,
          [.sendMessage user (.levelUp (.num (L + 1))), .saveXP])
      else (s.set user ⟨.num (x + a), .num L, g⟩, [.saveXP]) := by
  unfold addXP
  simp only [h, jsAdd, jsMul, jsGe, JSVal.toNumber, decide_eq_true_eq]
  rw [mul_comm L 100]

/-- `addXP` for a user without a record. -/
theorem addXP_absent (s : Store) (user : String) (a : Int) (h : s user = none) :
    addXP s user a =
      if 100 ≤ a then
        (s.set user ⟨.num a, .num 2, .undefined⟩,
          [.sendMessage user (.levelUp (.num 2)), .saveXP])
      else (s.set user ⟨.num a, .num 1, .undefined⟩, [.saveXP]) := by
  unfold addXP
  simp [h, jsAdd, jsMul, jsGe, JSVal.toNumber]

/-- C1: for a starting record with experience `x` and level `L` (an absent record
counting as experience 0, level 1) and any amount `a`, in particular `a >= 0`,
`addXP(user, a)` leaves
experience `x + a`; when `x + a >= 100 * L` it leaves level `L + 1` and sends exactly
one level-up notification, otherwise it leaves level `L` and sends none; no other
user's record changes.  In particular from experience `100 * L - 1`, adding 100
gives level `L + 1` with exactly one notification. -/
theorem addXP_one_level_per_call (s : Store) (user : String) (x L a : Int) (g : JSVal)
    (hrec : s user = some ⟨.num x, .num L, g⟩ ∨
      (s user = none ∧ x = 0 ∧ L = 1 ∧ g = .undefined)) :
    (100 * L ≤ x + a →
      (addXP s user a).1 user = some ⟨.num (x + a), .num (L + 1), g⟩ ∧
      (addXP s user a).2 = [.sendMessage user (.levelUp (.num (L + 1))), .saveXP] ∧
      (addXP s user a).2.countP Effect.isLevelUp = 1) ∧
    (x + a < 100 * L →
      (addXP s user a).1 user = some ⟨.num (x + a), .num L, g⟩ ∧
      (addXP s user a).2 = [.saveXP] ∧
      (addXP s user a).2.countP Effect.isLevelUp = 0) ∧
    (∀ u, u ≠ user → (addXP s user a).1 u = s u) ∧
    (x = 100 * L - 1 →
      (addXP s user 100).1 user = some ⟨.num (x + 100), .num (L + 1), g⟩ ∧
      (addXP s user 100).2.countP Effect.isLevelUp = 1) := by
  have key : ∀ b : Int, addXP s user b =
      if 100 * L ≤ x + b then
        (s.set user ⟨.num (x + b), .num (L + 1), g⟩,
          [.sendMessage user (.levelUp (.num (L + 1))), .saveXP])
      else (s.set user ⟨.num (x + b), .num L, g⟩, [.saveXP]) := by
    intro b
    rcases hrec with h | ⟨h, rfl, rfl, rfl⟩
    · exact addXP_numeric s user x L b g h
    · rw [addXP_absent s user b h]
      simp
  refine ⟨?_, ?_, ?_, ?_⟩
  · intro h
    rw [key a, if_pos h]
    exact ⟨set_same _ _ _, rfl, rfl⟩
  · intro h
    rw [key a, if_neg (not_le.mpr h)]
    exact ⟨set_same _ _ _, rfl, rfl⟩
  · intro u hu
    rw [key a]
    split <;> exact set_other _ _ _ _ hu
  · intro hx
    have h : 100 * L ≤ x + 100 := by omega
    rw [key 100, if_pos h]
    exact ⟨set_same _ _ _, rfl⟩

/-- Instance of C1: a user at level 3 with experience 299 receives 100. -/
theorem addXP_one_level_per_call_witness :
    oneRecord "u" ⟨.num 299, .num 3, .undefined⟩ "u" = some ⟨.num 299, .num 3, .undefined⟩ ∧
    (addXP (oneRecord "u" ⟨.num 299, .num 3, .undefined⟩) "u" 100).1 "u"
        = some ⟨.num (299 + 100), .num (3 + 1), .undefined⟩ ∧
    (addXP (oneRecord "u" ⟨.num 299, .num 3, .undefined⟩) "u" 100).2.countP
        Effect.isLevelUp = 1 :=
  ⟨by decide,
   (addXP_one_level_per_call (oneRecord "u" ⟨.num 299, .num 3, .undefined⟩) "u" 299 3 100
    .undefined (Or.inl (by decide))).2.2.2 (by decide)⟩


theorem isAdmin_false_of (chat : Chat) (sender : String)
    (h : chat.isGroup = false ∨
      ∀ p ∈ chat.participants, p.id = sender → p.isAdmin = false) :
    (chat.isGroup && isAdmin chat sender) = false := by
  unfold isAdmin
  cases hg : chat.isGroup with
  | false => simp
  | true =>
    simp
    rcases h with h | h
    · simp [hg] at h
    · cases hf : chat.participants.find? (fun p => decide (p.id = sender)) with
      | none => simp
      | some p =>
        have hm := List.mem_of_find?_eq_some hf
        have hp := List.find?_some hf
        simp at hp
        simp [h p hm hp]

/-- With the admin gate closed, none of the group-admin rules does anything. -/
theorem adminRules_gate (w : World) (msg : Msg) (body : List Char) (s : Store)
    (e : List Effect)
    (h : (msg.chat.isGroup && isAdmin msg.chat msg.sender) = false) :
    adminRules w msg body s e = ⟨s, e, false⟩ := by
  unfold adminRules
  simp only [Bool.and_assoc, h, Bool.and_false]
  simp

/-- A body that is no group-admin command passes all the group-admin rules. -/
theorem adminRules_other (w : World) (msg : Msg) (body : List Char) (s : Store)
    (e : List Effect) (h : isAdminCommand body = false) :
    adminRules w msg body s e = ⟨s, e, false⟩ := by
  unfold isAdminCommand at h
  simp only [Bool.or_eq_false_iff, decide_eq_false_iff_not] at h
  obtain ⟨⟨⟨⟨⟨h1, h2⟩, h3⟩, h4⟩, h5⟩, h6⟩ := h
  unfold adminRules
  simp [h1, h2, h3, h4, h5, h6]

/-- The group-admin rules never touch the mapping. -/
theorem adminRules_store (w : World) (msg : Msg) (body : List Char) (s : Store)
    (e : List Effect) : (adminRules w msg body s e).store = s := by
  unfold adminRules
  simp only
  split_ifs <;> rfl

/-- A command that is none of the media, profile, chat and game commands reaches
the guess rule with the mapping untouched. -/
theorem onMessage_command (w : World) (s : Store) (msg : Msg)
    (hdot : startsWith (trim msg.body.data) "." = true)
    (hvo : viewOncePasses msg)
    (h1 : trim msg.body.data ≠ ".sticker".data)
    (h2 : trim msg.body.data ≠ ".toimage".data)
    (h3 : trim msg.body.data ≠ ".profile".data)
    (h4 : startsWith (trim msg.body.data) ".crimson" = false)
    (h5 : trim msg.body.data ≠ ".game".data) :
    onMessage w s msg = guessRule w msg (trim msg.body.data) s [] := by
  have hv : (if (msg.hasMedia && msg.isViewOnce) = true then msg.downloadMedia 0 else none)
      = none := by
    split
    · next h => exact hvo h
    · rfl
  unfold onMessage
  simp only [hdot, hv, h1, h2, h3, h4, h5]
  simp

theorem guessRule_other (w : World) (msg : Msg) (body : List Char) (s : Store)
    (e : List Effect) (h : startsWith body ".guess" = false) :
    guessRule w msg body s e = adminRules w msg body s e := by
  unfold guessRule
  simp [h]

theorem adminCommand_shape (body : List Char) (h : isAdminCommand body = true) :
    startsWith body "." = true ∧ body ≠ ".sticker".data ∧ body ≠ ".toimage".data ∧
    body ≠ ".profile".data ∧ startsWith body ".crimson" = false ∧ body ≠ ".game".data ∧
    startsWith body ".guess" = false := by
  unfold isAdminCommand at h
  simp only [Bool.or_eq_true, decide_eq_true_eq, startsWith_iff] at h
  rcases h with ((((h | h) | h) | ⟨t, h⟩) | ⟨t, h⟩) | ⟨t, h⟩ <;> subst h <;>
    refine ⟨?_, ?_, ?_, ?_, ?_, ?_, ?_⟩ <;> first | rfl | decide | simp [startsWith]

theorem guessCommand_shape (body : List Char) (h : startsWith body ".guess" = true) :
    startsWith body "." = true ∧ body ≠ ".sticker".data ∧ body ≠ ".toimage".data ∧
    body ≠ ".profile".data ∧ startsWith body ".crimson" = false ∧ body ≠ ".game".data ∧
    isAdminCommand body = false := by
  obtain ⟨t, rfl⟩ := (startsWith_iff _ _).mp h
  refine ⟨?_, ?_, ?_, ?_, ?_, ?_, ?_⟩ <;>
    first | rfl | decide | simp [startsWith]

theorem viewOncePasses_of (msg : Msg) (h : (msg.hasMedia && msg.isViewOnce) = false) :
    viewOncePasses msg := by
  intro h2
  rw [h] at h2
  cases h2

/-- C4: for a message without view-once media whose trimmed body is a group-admin
command, if the chat is not a group or no participant with the sender's id is
flagged admin, the handler performs no moderation action, sends nothing and leaves
the mapping unchanged: it has no effect at all. -/
theorem admin_gate_blocks (w : World) (s : Store) (msg : Msg)
    (hcmd : isAdminCommand (trim msg.body.data) = true)
    (hvo : (msg.hasMedia && msg.isViewOnce) = false)
    (hgate : msg.chat.isGroup = false ∨
      ∀ p ∈ msg.chat.participants, p.id = msg.sender → p.isAdmin = false) :
    (onMessage w s msg).effects = [] ∧ (onMessage w s msg).store = s ∧
    (onMessage w s msg).threw = false := by
  obtain ⟨hdot, h1, h2, h3, h4, h5, h6⟩ := adminCommand_shape _ hcmd
  rw [onMessage_command w s msg hdot (viewOncePasses_of msg hvo) h1 h2 h3 h4 h5,
    guessRule_other _ _ _ _ _ h6,
    adminRules_gate _ _ _ _ _ (isAdmin_false_of _ _ hgate)]
  exact ⟨rfl, rfl, rfl⟩

/-- Instance of C4: `.mute` sent in `exGroup` by the member who is not an admin. -/
theorem admin_gate_blocks_witness :
    isAdminCommand (trim (groupMsg "member@c.us" ".mute" []).body.data) = true ∧
    (onMessage (exWorld 0) emptyStore (groupMsg "member@c.us" ".mute" [])).effects = [] ∧
    (onMessage (exWorld 0) emptyStore (groupMsg "member@c.us" ".mute" [])).store
      = emptyStore ∧
    (onMessage (exWorld 0) emptyStore (groupMsg "member@c.us" ".mute" [])).threw = false :=
  ⟨by decide,
   admin_gate_blocks (exWorld 0) emptyStore (groupMsg "member@c.us" ".mute" [])
    (by decide) (by decide) (Or.inr (by decide))⟩


/-- C5: a message without media whose trimmed body is exactly `.profile` gets exactly
one reply, sent to the sender; its text contains `Level: L` and `XP: X` where `L`
and `X` are the level and experience of the sender's record, taken as level 1 and
experience 0 when the sender has no record; the mapping is left unchanged. -/
theorem profile_reply (w : World) (s : Store) (msg : Msg)
    (hmedia : msg.hasMedia = false)
    (hbody : trim msg.body.data = ".profile".data) :
    (∃ text, (onMessage w s msg).effects = [.sendMessage msg.sender text] ∧
      ("Level: " ++ (progression s msg.sender).level.toStr).data <:+: text.render.data ∧
      ("XP: " ++ (progression s msg.sender).xp.toStr).data <:+: text.render.data) ∧
    (onMessage w s msg).store = s ∧
    (s msg.sender = none →
      (progression s msg.sender).level.toStr = "1" ∧
      (progression s msg.sender).xp.toStr = "0") := by
  refine ⟨⟨.profile (progression s msg.sender).level (progression s msg.sender).xp,
    ?_, ?_, ?_⟩, ?_, ?_⟩
  · unfold onMessage
    simp [hmedia, hbody, startsWith, progression, defaultRecord]
  · refine ⟨"📜 *Kurimuzon♦️ Profile*\n".data,
      ("\nXP: " ++ (progression s msg.sender).xp.toStr).data, ?_⟩
    simp [Text.render, String.data_append]
  · refine ⟨("📜 *Kurimuzon♦️ Profile*\nLevel: " ++
      (progression s msg.sender).level.toStr ++ "\n").data, [], ?_⟩
    simp [Text.render, String.data_append]
  · unfold onMessage
    simp [hmedia, hbody, startsWith]
  · intro h
    simp [progression, h, defaultRecord, JSVal.toStr, intToString]
    decide

/-- Instance of C5: `.profile` from a user with experience 47 at level 1. -/
theorem profile_reply_witness :
    trim (textMsg "u" ".profile").body.data = ".profile".data ∧
    (∃ text, (onMessage (exWorld 0) (oneRecord "u" ⟨.num 47, .num 1, .undefined⟩)
        (textMsg "u" ".profile")).effects = [.sendMessage "u" text] ∧
      "Level: 1".data <:+: text.render.data ∧ "XP: 47".data <:+: text.render.data) :=
  ⟨by decide,
   (profile_reply (exWorld 0) (oneRecord "u" ⟨.num 47, .num 1, .undefined⟩)
    (textMsg "u" ".profile") rfl (by decide)).1⟩

/-- Where the second piece of the body split at single spaces is missing or `isNaN`
of it holds, a message without view-once media whose trimmed body starts with
`.guess` gets exactly the usage-error reply and changes nothing in the mapping. -/
theorem guess_usage_error (w : World) (s : Store) (msg : Msg)
    (hvo : (msg.hasMedia && msg.isViewOnce) = false)
    (hguess : startsWith (trim msg.body.data) ".guess" = true)
    (htoken : (splitSpace (trim msg.body.data)).length < 2 ∨
      isNaN ((splitSpace (trim msg.body.data)).getD 1 []) = true) :
    (onMessage w s msg).effects = [.sendMessage msg.sender .guessUsage] ∧
    (onMessage w s msg).store = s ∧ (onMessage w s msg).threw = false := by
  obtain ⟨hdot, h1, h2, h3, h4, h5, _⟩ := guessCommand_shape _ hguess
  rw [onMessage_command w s msg hdot (viewOncePasses_of msg hvo) h1 h2 h3 h4 h5]
  have hc : (decide ((splitSpace (trim msg.body.data)).length < 2) ||
      isNaN ((splitSpace (trim msg.body.data)).getD 1 [])) = true := by
    rw [Bool.or_eq_true]
    rcases htoken with h | h
    · exact Or.inl (decide_eq_true h)
    · exact Or.inr h
  unfold guessRule
  simp only [hguess, hc, if_true]
  exact ⟨rfl, trivial, trivial⟩

/-- The usage-error reply on `.guess abc` while a round with number 7 is open. -/
theorem guess_usage_error_witness :
    startsWith (trim (textMsg "u" ".guess abc").body.data) ".guess" = true ∧
    isNaN ((splitSpace (trim (textMsg "u" ".guess abc").body.data)).getD 1 []) = true ∧
    (onMessage (exWorld 0) (oneRecord "u" ⟨.num 5, .num 1, .num 7⟩)
      (textMsg "u" ".guess abc")).effects = [.sendMessage "u" .guessUsage] ∧
    (onMessage (exWorld 0) (oneRecord "u" ⟨.num 5, .num 1, .num 7⟩)
      (textMsg "u" ".guess abc")).store = oneRecord "u" ⟨.num 5, .num 1, .num 7⟩ :=
  ⟨by decide, by decide,
   (guess_usage_error (exWorld 0) (oneRecord "u" ⟨.num 5, .num 1, .num 7⟩)
    (textMsg "u" ".guess abc") (by decide) (by decide) (Or.inr (by decide))).1,
   (guess_usage_error (exWorld 0) (oneRecord "u" ⟨.num 5, .num 1, .num 7⟩)
    (textMsg "u" ".guess abc") (by decide) (by decide) (Or.inr (by decide))).2.1⟩


/-- C6 on the code: `.guess  abc`, with two spaces, while a round on 7 is open.  The
token after the command, `abc`, is not numeric, but `split(' ')` yields the pieces
`.guess`, the empty string and `abc`; `isNaN('')` is false and `parseInt('')` is
`NaN`, so instead of the usage-error reply the handler sends the wrong-guess reply
revealing 7, clears the round and saves. -/
theorem guess_blank_token_resolves_round :
    startsWith (trim (textMsg "u" ".guess  abc").body.data) ".guess" = true ∧
    splitSpace (trim (textMsg "u" ".guess  abc").body.data)
      = [".guess".data, [], "abc".data] ∧
    isNaN [] = false ∧ isNaN "abc".data = true ∧ parseInt [] = .nan ∧
    (onMessage (exWorld 0) (oneRecord "u" ⟨.num 5, .num 1, .num 7⟩)
      (textMsg "u" ".guess  abc")).effects
      = [.sendMessage "u" (.guessWrong (.num 7)), .saveXP] ∧
    Effect.sendMessage "u" .guessUsage ∉
      (onMessage (exWorld 0) (oneRecord "u" ⟨.num 5, .num 1, .num 7⟩)
        (textMsg "u" ".guess  abc")).effects ∧
    (onMessage (exWorld 0) (oneRecord "u" ⟨.num 5, .num 1, .num 7⟩)
      (textMsg "u" ".guess  abc")).store "u" = some ⟨.num 5, .num 1, .undefined⟩ := by
  refine ⟨by decide, by decide, by decide, by decide, by decide, by decide, by decide,
    by decide⟩

/-- A message answered by the view-once rule: the media is sent back and nothing
else happens. -/
theorem onMessage_viewOnce (w : World) (s : Store) (msg : Msg)
    (hdot : startsWith (trim msg.body.data) "." = true)
    (hvo : ¬ viewOncePasses msg) :
    ∃ media, onMessage w s msg = ⟨s, [.sendMedia msg.sender media .viewOnceRevealed], false⟩ := by
  unfold viewOncePasses at hvo
  push_neg at hvo
  obtain ⟨hv, hd⟩ := hvo
  obtain ⟨media, hm⟩ := Option.ne_none_iff_exists'.mp hd
  refine ⟨media, ?_⟩
  unfold onMessage
  simp only [hdot, hv, hm]
  simp

/-- A `.guess` message with a numeric token and no open round. -/
theorem guessRule_noRound (w : World) (msg : Msg) (body : List Char) (s : Store)
    (e : List Effect)
    (hguess : startsWith body ".guess" = true)
    (hlen : 2 ≤ (splitSpace body).length)
    (hnum : isNaN ((splitSpace body).getD 1 []) = false)
    (hround : noOpenRound s msg.sender) :
    guessRule w msg body s e = ⟨s, e, false⟩ := by
  have hadm := (guessCommand_shape body hguess).2.2.2.2.2.2
  have hc : (decide ((splitSpace body).length < 2) ||
      isNaN ((splitSpace body).getD 1 [])) = false := by
    rw [Bool.or_eq_false_iff]
    exact ⟨decide_eq_false (by omega), hnum⟩
  unfold guessRule
  simp only [hguess, hc, if_true]
  cases hs : s msg.sender with
  | none => simp [adminRules_other _ _ _ _ _ hadm]
  | some r => simp [hround r hs, adminRules_other _ _ _ _ _ hadm]

/-- C7 as stated fails: `.guess 7` from a user without an open round is answered by
nothing at all, so no error reply reports the missing round. -/
theorem guess_without_round_no_reply :
    noOpenRound emptyStore "u" ∧
    (onMessage (exWorld 0) emptyStore (textMsg "u" ".guess 7")).effects = [] := by
  refine ⟨?_, by decide⟩
  intro r h
  cases h

/-- C7, amended: for a user with no open round, a `.guess` message with a numeric
token leaves the mapping unchanged (no experience is awarded) and no error reply is
sent: the handler sends no text message, and has no effect at all unless the
view-once rule answers the message. -/
theorem guess_without_round_silent (w : World) (s : Store) (msg : Msg)
    (hguess : startsWith (trim msg.body.data) ".guess" = true)
    (hlen : 2 ≤ (splitSpace (trim msg.body.data)).length)
    (hnum : isNaN ((splitSpace (trim msg.body.data)).getD 1 []) = false)
    (hround : noOpenRound s msg.sender) :
    (onMessage w s msg).store = s ∧
    (∀ dest text, Effect.sendMessage dest text ∉ (onMessage w s msg).effects) ∧
    (∀ text mentions, Effect.chatSendMessage text mentions ∉ (onMessage w s msg).effects) ∧
    (viewOncePasses msg → (onMessage w s msg).effects = []) := by
  obtain ⟨hdot, h1, h2, h3, h4, h5, _⟩ := guessCommand_shape _ hguess
  by_cases hvo : viewOncePasses msg
  · rw [onMessage_command w s msg hdot hvo h1 h2 h3 h4 h5,
      guessRule_noRound w msg _ s [] hguess hlen hnum hround]
    simp
  · obtain ⟨media, hm⟩ := onMessage_viewOnce w s msg hdot hvo
    rw [hm]
    simp [hvo]

/-- Instance of C7 (amended): `.guess 7` from a user whose round was already resolved. -/
theorem guess_without_round_silent_witness :
    noOpenRound (oneRecord "u" ⟨.num 25, .num 1, .undefined⟩) "u" ∧
    (onMessage (exWorld 0) (oneRecord "u" ⟨.num 25, .num 1, .undefined⟩)
      (textMsg "u" ".guess 7")).store = oneRecord "u" ⟨.num 25, .num 1, .undefined⟩ ∧
    (onMessage (exWorld 0) (oneRecord "u" ⟨.num 25, .num 1, .undefined⟩)
      (textMsg "u" ".guess 7")).effects = [] :=
  have hround : noOpenRound (oneRecord "u" ⟨.num 25, .num 1, .undefined⟩) "u" := by
    intro r h
    have hr : r = ⟨.num 25, .num 1, .undefined⟩ := by
      have h2 : oneRecord "u" ⟨.num 25, .num 1, .undefined⟩ "u"
          = some ⟨.num 25, .num 1, .undefined⟩ := by decide
      rw [h2] at h
      exact (Option.some.inj h).symm
    subst hr
    rfl
  ⟨hround,
   (guess_without_round_silent (exWorld 0) (oneRecord "u" ⟨.num 25, .num 1, .undefined⟩)
    (textMsg "u" ".guess 7") (by decide) (by decide) (by decide) hround).1,
   (guess_without_round_silent (exWorld 0) (oneRecord "u" ⟨.num 25, .num 1, .undefined⟩)
    (textMsg "u" ".guess 7") (by decide) (by decide) (by decide) hround).2.2.2
    (by intro h; cases h)⟩

/-- C8 on the code: `.game` from a user without a record creates the record `{}` plus
the drawn number: experience and level are absent, not 0 and 1, and the profile
read right after prints `undefined` for both. -/
theorem game_start_new_user_no_defaults :
    emptyStore "u" = none ∧
    (onMessage (exWorld 6) emptyStore (textMsg "u" ".game")).store "u"
      = some ⟨.undefined, .undefined, .num 7⟩ ∧
    (onMessage (exWorld 0) (onMessage (exWorld 6) emptyStore (textMsg "u" ".game")).store
      (textMsg "u" ".profile")).effects
      = [.sendMessage "u" (.profile .undefined .undefined)] ∧
    (Text.profile .undefined .undefined).render
      = "📜 *Kurimuzon♦️ Profile*\nLevel: undefined\nXP: undefined" := by
  refine ⟨rfl, by decide, by decide, by decide⟩

/-- C2 on the code: a new user starts a round (number 7) and guesses 7; the success
reply is sent and the round is cleared, but the experience is `NaN`, not 20. -/
theorem guess_correct_new_user_nan :
    (onMessage (exWorld 0) (onMessage (exWorld 6) emptyStore (textMsg "u" ".game")).store
      (textMsg "u" ".guess 7")).store "u" = some ⟨.nan, .undefined, .undefined⟩ ∧
    (onMessage (exWorld 0) (onMessage (exWorld 6) emptyStore (textMsg "u" ".game")).store
      (textMsg "u" ".guess 7")).effects
      = [.saveXP, .sendMessage "u" .guessCorrect, .saveXP] := by
  refine ⟨by decide, by decide⟩

/-- C3 on the code: a user whose record was created by `.game` sends `hello`; the
experience becomes `NaN`, so the 5 points are not awarded. -/
theorem non_command_after_game_nan :
    startsWith (trim (textMsg "u" "hello").body.data) "." = false ∧
    (onMessage (exWorld 6) emptyStore (textMsg "u" ".game")).store "u"
      = some ⟨.undefined, .undefined, .num 7⟩ ∧
    (onMessage (exWorld 0) (onMessage (exWorld 6) emptyStore (textMsg "u" ".game")).store
      (textMsg "u" "hello")).store "u" = some ⟨.nan, .undefined, .num 7⟩ := by
  refine ⟨by decide, by decide, by decide⟩


/-- The per-mention loop when no call rejects: one call per mentioned user. -/
theorem forEachMention_all (op : GroupOp) (rejects : Nat → Bool) (us : List String) :
    ∀ i, (∀ k, k < us.length → rejects (i + k) = false) →
      forEachMention op rejects i us = (us.map (fun u => Effect.group op (some u)), false) := by
  induction us with
  | nil => intro i _; rfl
  | cons u us ih =>
    intro i h
    have h0 : rejects i = false := by simpa using h 0 (by simp)
    have hrest : ∀ k, k < us.length → rejects (i + 1 + k) = false := by
      intro k hk
      have := h (k + 1) (by simp; omega)
      rwa [show i + 1 + k = i + (k + 1) by omega]
    simp [forEachMention, h0, ih (i + 1) hrest]

/-- The per-mention loop when call `k` is the first to reject: the calls for the
users up to and including the `k`-th are made, the later ones are not. -/
theorem forEachMention_first (op : GroupOp) (rejects : Nat → Bool) (us : List String) :
    ∀ i k, k < us.length → rejects (i + k) = true →
      (∀ j, j < k → rejects (i + j) = false) →
      forEachMention op rejects i us
        = ((us.take (k + 1)).map (fun u => Effect.group op (some u)), true) := by
  induction us with
  | nil => intro i k hk; simp at hk
  | cons u us ih =>
    intro i k hk hrej hbefore
    cases k with
    | zero =>
      have h0 : rejects i = true := by simpa using hrej
      simp [forEachMention, h0]
    | succ k =>
      have h0 : rejects i = false := by simpa using hbefore 0 (by omega)
      have hk2 : k < us.length := by simpa using hk
      have hrej2 : rejects (i + 1 + k) = true := by
        rwa [show i + 1 + k = i + (k + 1) by omega]
      have hb2 : ∀ j, j < k → rejects (i + 1 + j) = false := by
        intro j hj
        have := hbefore (j + 1) (by omega)
        rwa [show i + 1 + j = i + (j + 1) by omega]
      simp [forEachMention, h0, ih (i + 1) k hk2 hrej2 hb2]

/-- A `.kick`, `.promote` or `.demote` message that passes the admin gate runs
exactly the loop of its own operation. -/
theorem onMessage_mentionCommand (w : World) (s : Store) (msg : Msg) (op : GroupOp)
    (cmd : String)
    (hop : mentionCommand op = some cmd)
    (hbody : startsWith (trim msg.body.data) cmd = true)
    (hvo : viewOncePasses msg)
    (hgate : (msg.chat.isGroup && isAdmin msg.chat msg.sender) = true) :
    onMessage w s msg =
      ⟨s, (forEachMention op (w.rejects op) 0 msg.mentions).1,
        (forEachMention op (w.rejects op) 0 msg.mentions).2⟩ := by
  have hcmd : isAdminCommand (trim msg.body.data) = true := by
    cases op <;> simp [mentionCommand] at hop <;> subst hop <;>
      simp [isAdminCommand, hbody]
  obtain ⟨hdot, h1, h2, h3, h4, h5, h6⟩ := adminCommand_shape _ hcmd
  rw [onMessage_command w s msg hdot hvo h1 h2 h3 h4 h5, guessRule_other _ _ _ _ _ h6]
  rw [Bool.and_eq_true] at hgate
  obtain ⟨hg, ha⟩ := hgate
  cases op <;> simp [mentionCommand] at hop <;> subst hop <;>
    obtain ⟨t, ht⟩ := (startsWith_iff _ _).mp hbody <;>
    · unfold adminRules
      rw [ht]
      simp [startsWith, hg, ha]
      try (split <;> simp_all)

/-- C10 as stated fails: `.kick` by the admin of `exGroup` mentioning `a` and `b`,
when the removal of `a` rejects: the handler ends there and the removal of `b` is
never called. -/
theorem kick_rejection_aborts_rest :
    (onMessage exWorldRejecting emptyStore
      (groupMsg "admin@c.us" ".kick @a @b" ["a", "b"])).effects
      = [.group .removeParticipants (some "a")] ∧
    Effect.group .removeParticipants (some "b") ∉
      (onMessage exWorldRejecting emptyStore
        (groupMsg "admin@c.us" ".kick @a @b" ["a", "b"])).effects ∧
    (onMessage exWorldRejecting emptyStore
      (groupMsg "admin@c.us" ".kick @a @b" ["a", "b"])).threw = true := by
  refine ⟨by decide, by decide, by decide⟩

/-- C10, amended: a `.kick`, `.promote` or `.demote` message that passes the admin
gate calls its transport operation for the mentioned users one by one, in order.
If no call rejects, every mentioned user gets one call.  If call `k` is the first
to reject, the calls for the first `k + 1` mentioned users are the only ones made
and the handler ends in that rejection. -/
theorem mention_loop_until_rejection (w : World) (s : Store) (msg : Msg) (op : GroupOp)
    (cmd : String)
    (hop : mentionCommand op = some cmd)
    (hbody : startsWith (trim msg.body.data) cmd = true)
    (hvo : viewOncePasses msg)
    (hgate : (msg.chat.isGroup && isAdmin msg.chat msg.sender) = true) :
    ((∀ k, k < msg.mentions.length → w.rejects op k = false) →
      (onMessage w s msg).effects = msg.mentions.map (fun u => Effect.group op (some u)) ∧
      (onMessage w s msg).threw = false) ∧
    (∀ k, k < msg.mentions.length → w.rejects op k = true →
      (∀ j, j < k → w.rejects op j = false) →
      (onMessage w s msg).effects
        = (msg.mentions.take (k + 1)).map (fun u => Effect.group op (some u)) ∧
      (onMessage w s msg).threw = true) := by
  rw [onMessage_mentionCommand w s msg op cmd hop hbody hvo hgate]
  constructor
  · intro h
    rw [forEachMention_all op (w.rejects op) msg.mentions 0 (by simpa using h)]
    exact ⟨rfl, rfl⟩
  · intro k hk hrej hbefore
    rw [forEachMention_first op (w.rejects op) msg.mentions 0 k hk (by simpa using hrej)
      (by simpa using hbefore)]
    exact ⟨rfl, rfl⟩

/-- Instance of C10 (amended): `.kick @a @b` by the admin of `exGroup`, no call rejecting. -/
theorem mention_loop_until_rejection_witness :
    mentionCommand .removeParticipants = some ".kick" ∧
    (exGroup.isGroup && isAdmin exGroup "admin@c.us") = true ∧
    (onMessage (exWorld 0) emptyStore
      (groupMsg "admin@c.us" ".kick @a @b" ["a", "b"])).effects
      = [.group .removeParticipants (some "a"), .group .removeParticipants (some "b")] :=
  ⟨rfl, by decide,
   ((mention_loop_until_rejection (exWorld 0) emptyStore
      (groupMsg "admin@c.us" ".kick @a @b" ["a", "b"]) .removeParticipants ".kick" rfl
      (by decide) (by intro h; cases h) (by decide)).1 (by intro k _; rfl)).1⟩


/-- What `addXP` does, in terms of the progression read before the call. -/
theorem addXP_shape (s : Store) (u : String) (a : Int) :
    (addXP s u a).1 = s.set u ⟨jsAdd (progression s u).xp (.num a),
        if thresholdTest s u a then jsAdd (progression s u).level (.num 1)
        else (progression s u).level, (progression s u).game⟩ ∧
    (addXP s u a).2.countP Effect.isLevelUp = if thresholdTest s u a then 1 else 0 := by
  unfold addXP thresholdTest progression defaultRecord
  cases hs : s u <;> simp only [] <;> split <;> simp_all [Effect.isLevelUp]

theorem forEachMention_no_levelUp (op : GroupOp) (rejects : Nat → Bool) (us : List String) :
    ∀ i, (forEachMention op rejects i us).1.countP Effect.isLevelUp = 0 := by
  induction us with
  | nil => intro i; rfl
  | cons u us ih =>
    intro i
    unfold forEachMention
    split
    · rfl
    · have := ih (i + 1)
      simp_all [List.countP_cons, Effect.isLevelUp]

/-- The group-admin rules send no level-up notification. -/
theorem adminRules_levelUps (w : World) (msg : Msg) (body : List Char) (s : Store)
    (e : List Effect) :
    (adminRules w msg body s e).effects.countP Effect.isLevelUp
      = e.countP Effect.isLevelUp := by
  unfold adminRules
  simp only
  split_ifs <;>
    simp [List.countP_append, List.countP_cons, Effect.isLevelUp, forEachMention_no_levelUp]

theorem nonCommand_shape (body : List Char) (h : startsWith body "." = false) :
    body ≠ ".sticker".data ∧ body ≠ ".toimage".data ∧ body ≠ ".profile".data ∧
    startsWith body ".crimson" = false ∧ body ≠ ".game".data ∧
    startsWith body ".guess" = false ∧ isAdminCommand body = false := by
  have key : ∀ t : List Char, body ≠ '.' :: t := by
    intro t ht
    rw [ht] at h
    simp [startsWith] at h
  have pre : ∀ p : String, (∃ t, p.data = '.' :: t) → startsWith body p = false := by
    intro p ⟨t, hp⟩
    rw [Bool.eq_false_iff]
    intro hs
    obtain ⟨r, hr⟩ := (startsWith_iff _ _).mp hs
    rw [hp] at hr
    exact key _ hr
  refine ⟨key _, key _, key _, pre _ ⟨_, rfl⟩, key _, pre _ ⟨_, rfl⟩, ?_⟩
  unfold isAdminCommand
  simp only [Bool.or_eq_false_iff, decide_eq_false_iff_not]
  exact ⟨⟨⟨⟨⟨key _, key _⟩, key _⟩, pre _ ⟨_, rfl⟩⟩, pre _ ⟨_, rfl⟩⟩, pre _ ⟨_, rfl⟩⟩

/-- A message that is no command: `addXP(sender, 5)` is the only change of the
mapping and the only source of level-up notifications. -/
theorem onMessage_nonCommand (w : World) (s : Store) (msg : Msg)
    (hdot : startsWith (trim msg.body.data) "." = false) :
    (onMessage w s msg).store = (addXP s msg.sender 5).1 ∧
    (onMessage w s msg).effects.countP Effect.isLevelUp
      = (addXP s msg.sender 5).2.countP Effect.isLevelUp := by
  obtain ⟨h1, h2, h3, h4, h5, h6, h7⟩ := nonCommand_shape _ hdot
  unfold onMessage
  simp only [hdot, h1, h2, h3, h4, h5, guessRule_other _ _ _ _ _ h6,
    adminRules_other _ _ _ _ _ h7]
  simp only [Bool.not_false, if_true, Bool.and_true, decide_False, Bool.and_false,
    Bool.false_and, if_false]
  split
  · simp [List.countP_append, List.countP_cons, Effect.isLevelUp]
  · split
    · simp [List.countP_append, List.countP_cons, Effect.isLevelUp]
    · simp

/-- A message that is no command, does not mention the bot and is not answered by
the view-once rule: `addXP(sender, 5)` is all that happens. -/
theorem onMessage_nonCommand_quiet (w : World) (s : Store) (msg : Msg)
    (hdot : startsWith (trim msg.body.data) "." = false)
    (hids : ∀ ids, msg.mentionedIds = some ids → w.botId ∉ ids)
    (hname : includes (w.toLowerCase (trim msg.body.data)) "kurimuzon" = false)
    (hvo : viewOncePasses msg) :
    (onMessage w s msg).effects = (addXP s msg.sender 5).2 := by
  obtain ⟨h1, h2, h3, h4, h5, h6, h7⟩ := nonCommand_shape _ hdot
  have hv : (if (msg.hasMedia && msg.isViewOnce) = true then msg.downloadMedia 0 else none)
      = none := by
    split
    · next h => exact hvo h
    · rfl
  have hm : (match msg.mentionedIds with
      | some ids => ids.contains w.botId
      | none => false) = false := by
    cases hi : msg.mentionedIds with
    | none => rfl
    | some ids => simpa using hids ids hi
  unfold onMessage
  simp only [hdot, h1, h2, h3, h4, h5, guessRule_other _ _ _ _ _ h6,
    adminRules_other _ _ _ _ _ h7, hv, hm, hname]
  simp

theorem recordOrBlank_some (s : Store) (u : String) (r : Record) (h : s u = some r) :
    recordOrBlank s u = r := by
  simp [recordOrBlank, h]

/-- The guess rule changes the mapping in one of the three ways of `stepShape`. -/
theorem guessRule_shape (w : World) (msg : Msg) (body : List Char) (s : Store)
    (e : List Effect) :
    ∃ n, stepShape s msg.sender (guessRule w msg body s e).store n ∧
      (guessRule w msg body s e).effects.countP Effect.isLevelUp
        = e.countP Effect.isLevelUp + n := by
  have same : ∀ e2 : List Effect, e2.countP Effect.isLevelUp = e.countP Effect.isLevelUp →
      ∃ n, stepShape s msg.sender (adminRules w msg body s e2).store n ∧
        (adminRules w msg body s e2).effects.countP Effect.isLevelUp
          = e.countP Effect.isLevelUp + n := by
    intro e2 h2
    refine ⟨0, ⟨fun v _ => by rw [adminRules_store], Or.inl ⟨by rw [adminRules_store], rfl⟩⟩, ?_⟩
    rw [adminRules_levelUps, h2]
    rfl
  unfold guessRule
  simp only
  by_cases hg : startsWith body ".guess" = true
  swap
  · rw [if_neg hg]
    exact same e rfl
  rw [if_pos hg]
  by_cases hc : (decide ((splitSpace body).length < 2) ||
      isNaN ((splitSpace body).getD 1 [])) = true
  · rw [if_pos hc]
    exact ⟨0, ⟨fun v _ => rfl, Or.inl ⟨rfl, rfl⟩⟩,
      by simp [List.countP_append, List.countP_cons, Effect.isLevelUp]⟩
  rw [if_neg hc]
  cases hs : s msg.sender with
  | none => exact same e rfl
  | some r =>
    simp only
    by_cases ht : r.game.truthy = true
    swap
    · rw [if_neg ht]
      exact same e rfl
    rw [if_pos ht]
    by_cases hq : jsStrictEq (parseInt ((splitSpace body).getD 1 [])) r.game = true
    · -- the guess is right
      rw [if_pos hq]
      obtain ⟨hst, hcnt⟩ := addXP_shape s msg.sender 20
      simp only [hst, set_same, adminRules_store, adminRules_levelUps]
      refine ⟨if thresholdTest s msg.sender 20 then 1 else 0, ⟨?_, ?_⟩, ?_⟩
      · intro v hv
        rw [set_other _ _ _ _ hv, set_other _ _ _ _ hv]
      · exact Or.inr (Or.inr ⟨20, .undefined, by decide, by decide, set_same _ _ _, rfl⟩)
      · simp [List.countP_append, List.countP_cons, Effect.isLevelUp, hcnt]
    · -- the guess is wrong
      rw [if_neg hq]
      simp only [hs, adminRules_store, adminRules_levelUps]
      refine ⟨0, ⟨?_, ?_⟩, ?_⟩
      · intro v hv
        exact set_other _ _ _ _ hv
      · refine Or.inr (Or.inl ⟨.undefined, ?_, rfl⟩)
        rw [set_same, recordOrBlank_some s _ r hs]
      · simp [List.countP_append, List.countP_cons, Effect.isLevelUp]


/-- Handling any message changes the mapping in one of the three ways of `stepShape`. -/
theorem onMessage_shape (w : World) (s : Store) (msg : Msg) :
    stepShape s msg.sender (onMessage w s msg).store
      ((onMessage w s msg).effects.countP Effect.isLevelUp) := by
  by_cases hdot : startsWith (trim msg.body.data) "." = true
  · have quiet : ∀ e : List Effect, e.countP Effect.isLevelUp = 0 →
        stepShape s msg.sender s (e.countP Effect.isLevelUp) :=
      fun e he => ⟨fun v _ => rfl, Or.inl ⟨rfl, he⟩⟩
    unfold onMessage
    simp only [hdot, Bool.not_true, Bool.and_false, Bool.false_eq_true, if_false]
    split
    · exact quiet _ rfl
    · split
      · exact quiet _ rfl
      · split
        · exact quiet _ rfl
        · split
          · exact quiet _ rfl
          · split
            · exact quiet _ rfl
            · split
              · refine ⟨fun v hv => set_other _ _ _ _ hv,
                  Or.inr (Or.inl ⟨.num ((w.draw.val : Int) + 1), ?_, rfl⟩)⟩
                exact set_same _ _ _
              · obtain ⟨n, hn, hc⟩ := guessRule_shape w msg (trim msg.body.data) s []
                rw [hc]
                simpa using hn
  · have hdot2 : startsWith (trim msg.body.data) "." = false := by
      simpa using hdot
    obtain ⟨hst, hcnt⟩ := onMessage_nonCommand w s msg hdot2
    obtain ⟨hst2, hcnt2⟩ := addXP_shape s msg.sender 5
    rw [hst, hcnt, hst2, hcnt2]
    exact ⟨fun v hv => set_other _ _ _ _ hv,
      Or.inr (Or.inr ⟨5, _, by decide, by decide, set_same _ _ _, rfl⟩)⟩


theorem progression_some (s : Store) (u : String) (r : Record) (h : s u = some r) :
    progression s u = r := by
  simp [progression, h]

theorem settled_progression (s : Store) (u : String) (h : thresholdsSettled s) :
    jsGe (progression s u).xp (jsMul (progression s u).level (.num 100)) = false := by
  unfold progression
  cases hs : s u with
  | none => decide
  | some r => exact h u r hs

/-- One `addXP` step of at most 100 points keeps a settled record settled. -/
theorem settled_after_add (xp level : JSVal) (a : Int) (ha0 : 0 ≤ a) (ha : a ≤ 100)
    (h : jsGe xp (jsMul level (.num 100)) = false) :
    jsGe (jsAdd xp (.num a))
      (jsMul (if jsGe (jsAdd xp (.num a)) (jsMul level (.num 100)) then jsAdd level (.num 1)
        else level) (.num 100)) = false := by
  cases xp <;> cases level <;>
    simp only [jsGe, jsAdd, jsMul, JSVal.toNumber, decide_eq_false_iff_not,
      decide_eq_true_eq, Bool.false_eq_true, if_false] at h ⊢
  split_ifs <;>
    simp only [jsGe, jsAdd, jsMul, JSVal.toNumber, decide_eq_false_iff_not] <;> omega

theorem stepShape_settled (s t : Store) (u : String) (n : Nat)
    (h : thresholdsSettled s) (hstep : stepShape s u t n) : thresholdsSettled t := by
  obtain ⟨hother, hu⟩ := hstep
  intro v r hv
  by_cases hvu : v = u
  · subst hvu
    rcases hu with ⟨he, _⟩ | ⟨g, he, _⟩ | ⟨a, g, ha0, ha, he, _⟩
    · rw [he] at hv
      exact h v r hv
    · rw [he] at hv
      cases Option.some.inj hv
      unfold recordOrBlank
      cases hs : s v with
      | none => rfl
      | some r0 => exact h v r0 hs
    · rw [he] at hv
      cases Option.some.inj hv
      exact settled_after_add _ _ a ha0 ha (settled_progression s v h)
  · rw [hother v hvu] at hv
    exact h v r hv

theorem stepShape_crossed (s t : Store) (u : String) (n : Nat)
    (h : thresholdsSettled s) (hstep : stepShape s u t n) :
    n = (if crossed s t u then 1 else 0) ∧
    (crossed s t u = true →
      (progression t u).level = jsAdd (progression s u).level (.num 1)) := by
  obtain ⟨_, hu⟩ := hstep
  have hp := settled_progression s u h
  rcases hu with ⟨he, hn⟩ | ⟨g, he, hn⟩ | ⟨a, g, _, _, he, hn⟩
  · have hc : crossed s t u = false := by
      unfold crossed
      have : progression t u = progression s u := by
        unfold progression
        rw [he]
      rw [this]
      exact hp
    simp [hc, hn]
  · have hc : crossed s t u = false := by
      unfold crossed
      have : (progression t u).xp = (recordOrBlank s u).xp := by
        unfold progression
        rw [he]
      rw [this]
      unfold recordOrBlank
      cases hs : s u with
      | none => rfl
      | some r0 =>
        have : progression s u = r0 := by
          unfold progression
          rw [hs]
        rw [this]
        exact h u r0 hs
    simp [hc, hn]
  · have hx : (progression t u).xp = jsAdd (progression s u).xp (.num a) := by
      rw [progression_some t u _ he]
    have hl : (progression t u).level =
        if thresholdTest s u a then jsAdd (progression s u).level (.num 1)
        else (progression s u).level := by
      rw [progression_some t u _ he]
    have hc : crossed s t u = thresholdTest s u a := by
      unfold crossed thresholdTest
      rw [hx]
    rw [hc, hl, hn]
    refine ⟨rfl, ?_⟩
    intro htest
    rw [if_pos htest]

theorem runAll_settled (inputs : List (World × Msg)) :
    ∀ s, thresholdsSettled s → thresholdsSettled (runAll s inputs) := by
  induction inputs with
  | nil => intro s h; exact h
  | cons i rest ih =>
    intro s h
    obtain ⟨w, msg⟩ := i
    exact ih _ (stepShape_settled s _ msg.sender _ h (onMessage_shape w s msg))

/-- C9: in every mapping reached from the empty one by handling a finite sequence
of messages, no record has `xp >= level * 100`; and handling one more message from
there sends exactly one level-up notification if the sender crosses the threshold
of the level held before, none otherwise, a crossing advancing the level by one. -/
theorem thresholds_settled_when_reachable (inputs : List (World × Msg)) :
    thresholdsSettled (runAll emptyStore inputs) ∧
    ∀ (w : World) (msg : Msg),
      (onMessage w (runAll emptyStore inputs) msg).effects.countP Effect.isLevelUp
        = (if crossed (runAll emptyStore inputs)
              (onMessage w (runAll emptyStore inputs) msg).store msg.sender
           then 1 else 0) ∧
      (crossed (runAll emptyStore inputs)
          (onMessage w (runAll emptyStore inputs) msg).store msg.sender = true →
        (progression (onMessage w (runAll emptyStore inputs) msg).store msg.sender).level
          = jsAdd (progression (runAll emptyStore inputs) msg.sender).level (.num 1)) := by
  have h0 : thresholdsSettled emptyStore := by
    intro u r h
    cases h
  have hs := runAll_settled inputs emptyStore h0
  exact ⟨hs, fun w msg => stepShape_crossed _ _ msg.sender _ hs (onMessage_shape w _ msg)⟩


/-- Where the sender's experience is a number (no record counting as 0), a message
that is no command adds exactly 5 to it. -/
theorem nonCommand_adds_five (w : World) (s : Store) (msg : Msg) (x : Int)
    (hdot : startsWith (trim msg.body.data) "." = false)
    (hx : (progression s msg.sender).xp = .num x) :
    (progression (onMessage w s msg).store msg.sender).xp = .num (x + 5) := by
  rw [(onMessage_nonCommand w s msg hdot).1, (addXP_shape s msg.sender 5).1,
    progression_some _ _ _ (set_same _ _ _), hx]
  rfl

/-- A message that is no command, from a user without a record, with no mention of
the bot and not answered by the view-once rule, leaves the record
`{ xp: 5, level: 1 }` and sends nothing. -/
theorem nonCommand_new_user (w : World) (s : Store) (msg : Msg)
    (hdot : startsWith (trim msg.body.data) "." = false)
    (hnew : s msg.sender = none)
    (hids : ∀ ids, msg.mentionedIds = some ids → w.botId ∉ ids)
    (hname : includes (w.toLowerCase (trim msg.body.data)) "kurimuzon" = false)
    (hvo : viewOncePasses msg) :
    (onMessage w s msg).store msg.sender = some ⟨.num 5, .num 1, .undefined⟩ ∧
    (onMessage w s msg).effects = [.saveXP] := by
  rw [(onMessage_nonCommand w s msg hdot).1,
    onMessage_nonCommand_quiet w s msg hdot hids hname hvo, addXP_absent s _ 5 hnew]
  exact ⟨set_same _ _ _, rfl⟩

/-- Where the sender's record holds numbers, experience `x`, level `L` and a round
open on `n`, a `.guess` message whose token parses to `n` adds exactly 20 to
the experience, clears the round and sends the success reply; one whose token parses
to another value leaves experience and level, clears the round and reveals `n`. -/
theorem guess_resolves_round (w : World) (s : Store) (msg : Msg) (x L n : Int)
    (hrec : s msg.sender = some ⟨.num x, .num L, .num n⟩) (hn : n ≠ 0)
    (hvo : viewOncePasses msg)
    (hguess : startsWith (trim msg.body.data) ".guess" = true)
    (hlen : 2 ≤ (splitSpace (trim msg.body.data)).length)
    (hnum : isNaN ((splitSpace (trim msg.body.data)).getD 1 []) = false) :
    (parseInt ((splitSpace (trim msg.body.data)).getD 1 []) = .num n →
      (∃ level, (onMessage w s msg).store msg.sender
        = some ⟨.num (x + 20), level, .undefined⟩) ∧
      Effect.sendMessage msg.sender .guessCorrect ∈ (onMessage w s msg).effects) ∧
    (jsStrictEq (parseInt ((splitSpace (trim msg.body.data)).getD 1 [])) (.num n) = false →
      (onMessage w s msg).store msg.sender = some ⟨.num x, .num L, .undefined⟩ ∧
      (onMessage w s msg).effects
        = [.sendMessage msg.sender (.guessWrong (.num n)), .saveXP]) := by
  obtain ⟨hdot, h1, h2, h3, h4, h5, hadm⟩ := guessCommand_shape _ hguess
  have hc : ¬ (decide ((splitSpace (trim msg.body.data)).length < 2) ||
      isNaN ((splitSpace (trim msg.body.data)).getD 1 [])) = true := by
    rw [Bool.or_eq_true, not_or]
    exact ⟨by simpa using hlen, by rw [hnum]; exact Bool.false_ne_true⟩
  have ht : (JSVal.num n).truthy = true := by simp [JSVal.truthy, hn]
  rw [onMessage_command w s msg hdot hvo h1 h2 h3 h4 h5]
  unfold guessRule
  simp only
  rw [if_pos hguess, if_neg hc]
  simp only [hrec]
  rw [if_pos ht]
  constructor
  · intro hp
    have hq : jsStrictEq (parseInt ((splitSpace (trim msg.body.data)).getD 1 []))
        (.num n) = true := by
      rw [hp]
      simp [jsStrictEq]
    rw [if_pos hq]
    simp only [(addXP_shape s msg.sender 20).1, set_same, adminRules_other _ _ _ _ _ hadm,
      progression_some _ _ _ hrec]
    exact ⟨⟨_, rfl⟩, by simp⟩
  · intro hq
    rw [if_neg (by rw [hq]; exact Bool.false_ne_true)]
    simp only [hrec, adminRules_other _ _ _ _ _ hadm]
    exact ⟨set_same _ _ _, rfl⟩


end Kurimuzon
